import Mathlib

/-!
Verification of the ai-sales-rep website-analysis pipeline.

Shallow embedding of the crawl/discovery and page-selection core:
* `isRelevantUrl`, `crawlWebsite` loop (src/crawling/crawler.ts)
* `fetchSitemap` (src/crawling/sitemap.ts)
* `analyzeWithLLM`, `generateBusinessSummary` (src/analysis/llm-analyzer.ts,
  src/analysis/business-summarizer.ts)
* the `WebsiteAnalyzer` constructor and per-URL admission loop
  (src/website-analyzer.ts), `initializeSensayConfig`
  (src/config/sensay-config.ts).

Conventions: JavaScript strings are modelled as Lean `String` (length and
substring operations act on characters); JavaScript `Set` objects are
modelled as duplicate-free `List String` in insertion order; `null` and
`undefined` become `Option`; a thrown-and-caught exception becomes an
explicit `Option`/`Except` value; external effects (browser navigation,
HTTP fetch, the language-model call, XML parsing by the xml2js library)
are parameters of the embedded functions, so every theorem quantifies over
their outcomes.
-/

namespace AiSalesRep

/-! ### String primitives (JavaScript `includes`, `toLowerCase`, `trim`) -/

/-- `prefixAt needle haystack` is true when `needle` occurs at the start of
`haystack` (character-exact). -/
def prefixAt : List Char → List Char → Bool
  | [], _ => true
  | _ :: _, [] => false
  | a :: n, b :: h => a == b && prefixAt n h

/-- `substrB needle haystack`: JavaScript `haystack.includes(needle)` on
character lists — `needle` occurs contiguously somewhere in `haystack`. -/
def substrB : List Char → List Char → Bool
  | n, [] => prefixAt n []
  | n, b :: h => prefixAt n (b :: h) || substrB n h

/-- JavaScript `String.prototype.toLowerCase` (ASCII range, which is all the
fixed keyword list exercises). -/
def strLower (s : String) : String := ⟨s.data.map Char.toLower⟩

/-! ### `isRelevantUrl` (src/crawling/crawler.ts lines 4–9) -/

/-- Embeds `isRelevantUrl`: lower-case the URL, then test each keyword with
`urlLower.includes(keyword) || urlLower.includes('/' + keyword)`. -/
def isRelevantUrl (url : String) (relevantKeywords : List String) : Bool :=
  let urlLower := strLower url
  relevantKeywords.any fun keyword =>
    substrB keyword.data urlLower.data || substrB ("/" ++ keyword).data urlLower.data

/-- The fixed keyword list from the `WebsiteAnalyzer` constructor
(src/website-analyzer.ts lines 24–27). -/
def relevantKeywords : List String :=
  ["product", "services", "offer", "faq", "help", "support",
   "delivery", "returns", "about", "contact"]

/-- Spec-side notion: `keyword` is a case-insensitive substring of `url`
(both sides lower-cased before the substring test). -/
def ciSubstr (keyword url : String) : Bool :=
  substrB (keyword.data.map Char.toLower) (url.data.map Char.toLower)

/-- Spec-side relevance test, written from the spec's words: some keyword is
a case-insensitive substring of the URL, either bare or prefixed with `/`. -/
def isRelevantUrlSpec (url : String) (keywords : List String) : Bool :=
  keywords.any fun keyword => ciSubstr keyword url || ciSubstr ("/" ++ keyword) url

/-- JavaScript `s.split(sep)` on character lists: splitting on every
occurrence of `sep`, keeping empty pieces (`"".split` is `[""]`). -/
def splitOnChar (sep : Char) : List Char → List (List Char)
  | [] => [[]]
  | c :: rest =>
    match splitOnChar sep rest with
    | [] => [[c]]
    | cur :: parts =>
      if c == sep then [] :: cur :: parts else (c :: cur) :: parts

/-- JavaScript `s.split('\n')`. -/
def jsSplit (s : String) (sep : Char) : List String :=
  (splitOnChar sep s.data).map fun l => ⟨l⟩

/-- Leading-whitespace strip, for `trim`. -/
def trimLeftL : List Char → List Char
  | [] => []
  | c :: rest => if c.isWhitespace then trimLeftL rest else c :: rest

/-- JavaScript `s.trim()` (ASCII whitespace). -/
def jsTrim (s : String) : String :=
  ⟨(trimLeftL (trimLeftL s.data.reverse).reverse)⟩

/-! ### `analyzeWithLLM` (src/analysis/llm-analyzer.ts) -/

/-- The prompt submitted to the model: only the first 50 discovered URLs are
interpolated (`urls.slice(0, 50).join('\n')`). -/
def analyzeWithLLMPrompt (urls : List String) (baseUrl : String) : String :=
  let urlList := String.intercalate "\n" (urls.take 50)
  "Analyze this list of URLs from a business website and identify the most relevant pages for customer support representative to answer questions about the company's products, services, and policies.\n\nLook for pages like:\n- Products/services pages\n- FAQ/help/support pages\n- About us/company information\n- Pricing/offers\n- Contact information\n- Terms of service/policies\n- Case studies/testimonials\n\nWebsite: " ++ baseUrl ++ "\n\nURLs to analyze:\n" ++ urlList ++ "\n\nReturn ONLY the most relevant URLs (max 15), one per line, without any explanations or additional text:"

/-- Embeds `analyzeWithLLM` after the prompt is built. The model call's
outcome is a parameter: `.error _` is a thrown exception (network, rate
limit), `.ok none` a response with no message content (the `?.` chain plus
`|| []`), `.ok (some content)` a successful completion. The success path
splits on newlines, keeps lines whose trim is nonempty and that start with
`http` (the `startsWith` test runs on the untrimmed line, as in the source),
and caps at 15; the failure path filters the full URL list by
`isRelevantUrl` and caps at 15. -/
def analyzeWithLLM (urls : List String) (relevantKeywords : List String)
    (modelOutcome : Except Unit (Option String)) : List String :=
  match modelOutcome with
  | .ok contentOpt =>
    match contentOpt with
    | some content =>
      ((jsSplit content '\n').filter fun line =>
        !(jsTrim line == "") && prefixAt "http".data line.data).take 15
    | none => []
  | .error _ =>
    (urls.filter fun url => isRelevantUrl url relevantKeywords).take 15

/-! ### `crawlWebsite` (src/crawling/crawler.ts lines 11–59)

The browser is external: `links url` stands for the anchor hrefs collected
after navigating to `url` (a navigation error yields no links, exactly like
the source's per-page `catch`), and `sameHost link` for the test
`new URL(link).hostname === new URL(baseUrl).hostname` (a `URL`-constructor
throw behaves like `false`: the link is skipped either way). -/

/-- One crawl state: `urlsToVisit` is the FIFO frontier, `foundUrls` the
discovered set in insertion order, `visitedUrls` the visited set in
insertion order (JavaScript `Set`s, modelled as duplicate-free lists). -/
structure CrawlState where
  urlsToVisit : List String
  foundUrls : List String
  visitedUrls : List String
deriving Repr, DecidableEq

/-- Processing of one collected link: if it is same-host and not yet
discovered, add it to `foundUrls` and push it on the frontier. -/
def addLink (sameHost : String → Bool) (s : CrawlState) (link : String) : CrawlState :=
  if sameHost link && !s.foundUrls.contains link then
    { s with foundUrls := s.foundUrls ++ [link], urlsToVisit := s.urlsToVisit ++ [link] }
  else s

/-- One iteration of the `while` body: dequeue the frontier head, skip it if
already visited, otherwise mark it visited and process the links found on
that page. -/
def crawlStep (links : String → List String) (sameHost : String → Bool)
    (s : CrawlState) : CrawlState :=
  match s.urlsToVisit with
  | [] => s
  | currentUrl :: rest =>
    if s.visitedUrls.contains currentUrl then
      { s with urlsToVisit := rest }
    else
      (links currentUrl).foldl (addLink sameHost)
        { s with urlsToVisit := rest, visitedUrls := s.visitedUrls ++ [currentUrl] }

/-- The `while (urlsToVisit.length > 0 && visitedUrls.size < maxPages)` loop,
fuelled (the source loop terminates because each iteration either visits a
new page or shrinks the frontier; any sufficiently large fuel reaches the
same fixed point). -/
def crawlLoop (links : String → List String) (sameHost : String → Bool)
    (maxPages : Nat) : Nat → CrawlState → CrawlState
  | 0, s => s
  | Nat.succ fuel, s =>
    if s.urlsToVisit.isEmpty || maxPages ≤ s.visitedUrls.length then s
    else crawlLoop links sameHost maxPages fuel (crawlStep links sameHost s)

/-- The seed state: `urlsToVisit = [baseUrl]`, `foundUrls = {baseUrl}`,
`visitedUrls = {}`. -/
def initCrawlState (baseUrl : String) : CrawlState :=
  { urlsToVisit := [baseUrl], foundUrls := [baseUrl], visitedUrls := [] }

/-- `crawlWebsite` returns `Array.from(foundUrls)`. -/
def crawlWebsite (links : String → List String) (sameHost : String → Bool)
    (baseUrl : String) (maxPages : Nat) (fuel : Nat) : List String :=
  (crawlLoop links sameHost maxPages fuel (initCrawlState baseUrl)).foundUrls

/-- The crawl invariant: visited and frontier are duplicate-free and both
contained in the discovered set. -/
def CrawlInv (s : CrawlState) : Prop :=
  s.visitedUrls.Nodup ∧ s.urlsToVisit.Nodup ∧
  (∀ u ∈ s.visitedUrls, u ∈ s.foundUrls) ∧
  (∀ u ∈ s.urlsToVisit, u ∈ s.foundUrls)

/-- The crawl state after any number of loop iterations, starting from the
seed state for `baseUrl`. -/
def crawlRun (links : String → List String) (sameHost : String → Bool)
    (baseUrl : String) (maxPages fuel : Nat) : CrawlState :=
  crawlLoop links sameHost maxPages fuel (initCrawlState baseUrl)

/-! ### `fetchSitemap` (src/crawling/sitemap.ts lines 4–31)

The HTTP fetch and the xml2js parse are external. A response is its `ok`
flag plus the parse outcome of its body: `body = none` means
`parser.parseStringPromise` threw (the body is not well-formed XML);
`body = some px` is the parsed object, of which the source reads only
`result.urlset`, `urlset.url` and each entry's `loc[0]` (with JavaScript
truthiness: a missing field, an empty `url`-less `urlset` element and an
empty `loc` string are all falsy). -/

/-- One `<url>` element as xml2js renders it: `loc` is the list of `<loc>`
child texts, or absent. -/
structure SitemapUrlEntry where
  loc : Option (List String)
deriving Repr, DecidableEq

/-- The `<urlset>` element: `url` is the list of `<url>` children, or
absent/falsy. -/
structure SitemapUrlset where
  url : Option (List SitemapUrlEntry)
deriving Repr, DecidableEq

/-- The parsed document: `urlset` is present iff the root element is
`<urlset>` (and truthy). -/
structure SitemapXml where
  urlset : Option SitemapUrlset
deriving Repr, DecidableEq

/-- The fetched `/sitemap.xml` response: HTTP success flag and body parse
outcome. -/
structure SitemapResponse where
  ok : Bool
  body : Option SitemapXml
deriving Repr, DecidableEq

/-- The `result.urlset.url.forEach` push loop: for each `<url>` entry, push
`loc[0]` when `urlObj.loc && urlObj.loc[0]` is truthy (first `<loc>` text
present and nonempty). -/
def extractLocs : List SitemapUrlEntry → List String
  | [] => []
  | e :: rest =>
    match e.loc with
    | some (l0 :: _) =>
      if l0 ≠ "" then l0 :: extractLocs rest else extractLocs rest
    | _ => extractLocs rest

/-- The `urls` accumulator of `fetchSitemap`: the guarded
`if (result.urlset && result.urlset.url)` around the push loop; when either
is falsy the accumulator stays `[]`. -/
def sitemapUrls (px : SitemapXml) : List String :=
  match px.urlset with
  | some us =>
    match us.url with
    | some entries => extractLocs entries
    | none => []
  | none => []

/-- Embeds `fetchSitemap`: a non-success status throws (caught: `null`), a
body that fails to parse throws (caught: `null`); otherwise the `<loc>`
texts are collected — an absent or non-`urlset` root simply yields the
empty list, not `null`. -/
def fetchSitemap (resp : SitemapResponse) : Option (List String) :=
  if !resp.ok then none
  else
    match resp.body with
    | none => none
    | some px => some (sitemapUrls px)

/-- All `<loc>` texts of a `<url>`-entry list, in document order. -/
def locEntriesList : List SitemapUrlEntry → List String
  | [] => []
  | e :: rest => e.loc.getD [] ++ locEntriesList rest

/-- Spec-side: all `<loc>` texts of the document in order (what "a sitemap
with N loc entries" counts). -/
def locEntries (px : SitemapXml) : List String :=
  match px.urlset with
  | some us =>
    match us.url with
    | some entries => locEntriesList entries
    | none => []
  | none => []

/-- Spec-side: the body is a well-formed XML document whose root is a
`<urlset>` (the sitemap-protocol shape the source reads). -/
def conformsToSitemapShape (body : Option SitemapXml) : Bool :=
  match body with
  | some px => px.urlset.isSome
  | none => false

/-! ### The Analyzer orchestration (src/website-analyzer.ts) -/

/-- `let urls = await fetchSitemap(...); if (!urls) urls = await
crawlWebsite(...)`: the crawl is the fallback exactly when the sitemap
result is `null` (an empty list is truthy in JavaScript and is kept). -/
def discoverUrls (sitemapResult : Option (List String))
    (crawlResult : List String) : List String :=
  match sitemapResult with
  | none => crawlResult
  | some urls => urls

/-- `PageContent` from src/types: the extraction result for one URL. -/
structure PageContent where
  title : String
  metaDescription : String
  content : String
deriving Repr, DecidableEq

/-- `AnalyzedPage` from src/types: one corpus record. -/
structure AnalyzedPage where
  url : String
  title : String
  description : String
  content : String
deriving Repr, DecidableEq

/-- JavaScript `s.substring(0, n)` (character-level). -/
def jsSubstring (s : String) (n : Nat) : String := ⟨s.data.take n⟩

/-- One iteration of the Analyzer's per-URL loop (src/website-analyzer.ts
lines 64–78): `extract` is `extractPageContent` (`none` on navigation or
evaluation error); a page is appended iff the result is non-null and its
content is longer than 100 characters, with content truncated to 3000. -/
def processRelevantUrl (extract : String → Option PageContent)
    (pages : List AnalyzedPage) (url : String) : List AnalyzedPage :=
  match extract url with
  | some c =>
    if 100 < c.content.length then
      pages ++ [{ url := url, title := c.title, description := c.metaDescription,
                  content := jsSubstring c.content 3000 }]
    else pages
  | none => pages

/-- The Analyzer's whole `for (const url of relevantUrls)` loop, starting
from the (empty) `analyzedPages` accumulator. -/
def analyzeRelevantUrls (extract : String → Option PageContent)
    (relevantUrls : List String) : List AnalyzedPage :=
  relevantUrls.foldl (processRelevantUrl extract) []

/-! ### Configuration (src/config/sensay-config.ts, constructor of
`WebsiteAnalyzer`) -/

/-- JavaScript truthiness of `process.env.X`: set and nonempty. -/
def envTruthy : Option String → Bool
  | none => false
  | some s => !(s == "")

/-- The environment variables the constructor and `initializeSensayConfig`
read. -/
structure Env where
  OPENAI_API_KEY : Option String
  OPENAI_BASE_URL : Option String
  SENSAY_API_KEY : Option String
  SENSAY_API_URL : Option String
  SENSAY_ORGANIZATION_ID : Option String
  SENSAY_USER_ID : Option String

/-- `SensayConfig` from src/types. -/
structure SensayConfig where
  apiKey : String
  apiUrl : String
  organizationId : String
  userId : String

/-- Embeds `initializeSensayConfig`: all four variables truthy, or `null`. -/
def initializeSensayConfig (env : Env) : Option SensayConfig :=
  if envTruthy env.SENSAY_API_KEY && envTruthy env.SENSAY_API_URL &&
      envTruthy env.SENSAY_ORGANIZATION_ID && envTruthy env.SENSAY_USER_ID then
    some { apiKey := env.SENSAY_API_KEY.getD "",
           apiUrl := env.SENSAY_API_URL.getD "",
           organizationId := env.SENSAY_ORGANIZATION_ID.getD "",
           userId := env.SENSAY_USER_ID.getD "" }
  else none

/-- The instance fields the `WebsiteAnalyzer` constructor initializes. -/
structure WebsiteAnalyzerState where
  baseUrl : String
  relevantKeywords : List String
  analyzedPages : List AnalyzedPage
  openaiApiKey : String
  openaiBaseUrl : Option String
  sensayConfig : Option SensayConfig

/-- Embeds the `WebsiteAnalyzer` constructor (src/website-analyzer.ts lines
22–41): it is pure configuration — it throws exactly when
`process.env.OPENAI_API_KEY` is falsy, and performs no discovery, crawl or
network work (those happen only in `analyze`). -/
def mkWebsiteAnalyzer (env : Env) (baseUrl : String) :
    Except String WebsiteAnalyzerState :=
  if !envTruthy env.OPENAI_API_KEY then
    Except.error "OPENAI_API_KEY environment variable is required"
  else
    Except.ok { baseUrl := baseUrl, relevantKeywords := relevantKeywords,
                analyzedPages := [],
                openaiApiKey := env.OPENAI_API_KEY.getD "",
                openaiBaseUrl := env.OPENAI_BASE_URL,
                sensayConfig := initializeSensayConfig env }

/-! ### `generateBusinessSummary` (src/analysis/business-summarizer.ts) -/

/-- Embeds `generateBusinessSummary`. The model call is a parameter taking
the submitted prompt; with an empty corpus the function returns its
placeholder before any prompt is built or submitted — which is why the
result is the same for every `model`. -/
def generateBusinessSummary (analyzedPages : List AnalyzedPage)
    (model : String → Except Unit (Option String)) : String :=
  if analyzedPages.length = 0 then
    "No content available for analysis."
  else
    let contentSummary := String.intercalate "\n\n---\n\n"
      (analyzedPages.map fun page =>
        "URL: " ++ page.url ++ "\nTitle: " ++ page.title ++ "\nContent: "
          ++ jsSubstring page.content 1500)
    let prompt := "Analyze the following website content and create a comprehensive business summary for a chatbot knowledge base.\n\nProvide:\n1. Company Overview (what they do, mission, key value propositions)\n2. Products/Services (detailed descriptions, features, benefits)\n3. Target Audience (who they serve)\n4. Key Information (pricing, policies, contact details)\n5. FAQ Insights (common questions and answers)\n6. Support Information (how customers can get help)\n\nWebsite Content:\n" ++ contentSummary ++ "\n\nFormat the response as a structured markdown document suitable for a customer service chatbot:"
    match model prompt with
    | .ok (some content) => content
    | .ok none => "Failed to generate business summary."
    | .error _ => "Failed to generate business summary due to LLM error."

/-- A concrete two-page site used to exercise the crawl theorems: the base
page links to `/faq`, every other page links to `/about`. -/
def demoLinks : String → List String := fun u =>
  if u = "https://a.test" then ["https://a.test/faq"] else ["https://a.test/about"]

/-- A 5000-character extracted page body (the spec's truncation example). -/
def demoLongContent : String := ⟨List.replicate 5000 'a'⟩

/-- A 50-character extracted page body (the spec's rejection example). -/
def demoShortContent : String := ⟨List.replicate 50 'a'⟩

/-- A concrete extraction oracle serving one long page, one short page and
failing elsewhere. -/
def demoExtract : String → Option PageContent := fun url =>
  if url = "https://a.test/long" then some ⟨"Long", "Meta", demoLongContent⟩
  else if url = "https://a.test/short" then some ⟨"Short", "Meta", demoShortContent⟩
  else none

/-!
## Lemmas and claim theorems
-/



/-! #### Substring lemmas -/

theorem substrB_of_prefixAt {n h : List Char} (hp : prefixAt n h = true) :
    substrB n h = true := by
  cases h with
  | nil => simpa [substrB] using hp
  | cons b t => simp [substrB, hp]

theorem substrB_of_cons {a : Char} {n h : List Char}
    (hs : substrB (a :: n) h = true) : substrB n h = true := by
  induction h with
  | nil => simp [substrB, prefixAt] at hs
  | cons b t ih =>
    rw [substrB, Bool.or_eq_true] at hs
    cases hs with
    | inl hp =>
      rw [prefixAt, Bool.and_eq_true] at hp
      have ht : substrB n t = true := substrB_of_prefixAt hp.2
      simp [substrB, ht]
    | inr hrec =>
      have ht := ih hrec
      simp [substrB, ht]

theorem string_data_append (s t : String) : (s ++ t).data = s.data ++ t.data := by
  cases s; cases t; rfl

/-- The `urlLower.includes('/' + keyword)` disjunct is subsumed by the bare
`urlLower.includes(keyword)` test. -/
theorem slash_check_redundant (keyword : String) (h : List Char) :
    (substrB keyword.data h || substrB ("/" ++ keyword).data h)
      = substrB keyword.data h := by
  cases hb : substrB ("/" ++ keyword).data h with
  | false => simp
  | true =>
    have : substrB keyword.data h = true := by
      have := hb
      rw [string_data_append] at this
      exact substrB_of_cons this
    simp [this]

theorem any_congr_mem {α : Type} {f g : α → Bool} :
    ∀ (l : List α), (∀ a ∈ l, f a = g a) → l.any f = l.any g
  | [], _ => rfl
  | a :: l, h => by
    have ha := h a (by simp)
    have hl := any_congr_mem l (fun b hb => h b (by simp [hb]))
    simp [List.any_cons, ha, hl]

theorem data_map_toLower_of_fixed {k : String} (hk : strLower k = k) :
    k.data.map Char.toLower = k.data := by
  have := congrArg String.data hk
  simpa [strLower] using this

theorem ciSubstr_of_fixed {k : String} (hk : strLower k = k) (url : String) :
    ciSubstr k url = substrB k.data (strLower url).data := by
  unfold ciSubstr strLower
  rw [data_map_toLower_of_fixed hk]

theorem ciSubstr_slash_of_fixed {k : String} (hk : strLower k = k) (url : String) :
    ciSubstr ("/" ++ k) url = substrB ("/" ++ k).data (strLower url).data := by
  unfold ciSubstr strLower
  rw [string_data_append]
  show substrB (List.map Char.toLower ('/' :: k.data)) _ = _
  rw [List.map_cons, data_map_toLower_of_fixed hk]
  rfl

/-- On keyword lists fixed by lower-casing (as the constructor's list is),
the spec-side case-insensitive matcher agrees with `isRelevantUrl`. -/
theorem isRelevantUrlSpec_eq_of_fixed (url : String) (keywords : List String)
    (hk : ∀ k ∈ keywords, strLower k = k) :
    isRelevantUrlSpec url keywords = isRelevantUrl url keywords := by
  unfold isRelevantUrlSpec isRelevantUrl
  exact any_congr_mem keywords fun k hkm => by
    rw [ciSubstr_of_fixed (hk k hkm), ciSubstr_slash_of_fixed (hk k hkm)]

theorem addLink_found_mono (sameHost : String → Bool) (s : CrawlState)
    (link : String) : ∀ u ∈ s.foundUrls, u ∈ (addLink sameHost s link).foundUrls := by
  intro u hu
  unfold addLink
  split
  · simp [hu]
  · exact hu

theorem addLink_visited_eq (sameHost : String → Bool) (s : CrawlState)
    (link : String) : (addLink sameHost s link).visitedUrls = s.visitedUrls := by
  unfold addLink
  split <;> rfl

theorem foldl_addLink_found_mono (sameHost : String → Bool) :
    ∀ (ls : List String) (s : CrawlState), ∀ u ∈ s.foundUrls,
      u ∈ (ls.foldl (addLink sameHost) s).foundUrls
  | [], _, _, hu => hu
  | l :: ls, s, u, hu =>
    foldl_addLink_found_mono sameHost ls (addLink sameHost s l) u
      (addLink_found_mono sameHost s l u hu)

theorem foldl_addLink_visited_eq (sameHost : String → Bool) :
    ∀ (ls : List String) (s : CrawlState),
      (ls.foldl (addLink sameHost) s).visitedUrls = s.visitedUrls
  | [], _ => rfl
  | l :: ls, s => by
    rw [List.foldl_cons, foldl_addLink_visited_eq sameHost ls,
      addLink_visited_eq]

theorem addLink_inv (sameHost : String → Bool) (s : CrawlState) (link : String)
    (h : CrawlInv s) : CrawlInv (addLink sameHost s link) := by
  obtain ⟨hv, hf, hvf, hff⟩ := h
  unfold addLink
  split
  case isTrue hcond =>
    simp at hcond
    refine ⟨hv, ?_, ?_, ?_⟩
    · rw [List.nodup_append]
      refine ⟨hf, List.nodup_singleton link, ?_⟩
      intro u hu hul
      rw [List.mem_singleton] at hul
      exact hcond.2 (hul ▸ hff u hu)
    · intro u hu
      simp [hvf u hu]
    · intro u hu
      rcases List.mem_append.1 hu with hu | hu
      · simp [hff u hu]
      · simp at hu
        simp [hu]
  case isFalse => exact ⟨hv, hf, hvf, hff⟩

theorem foldl_addLink_inv (sameHost : String → Bool) :
    ∀ (ls : List String) (s : CrawlState), CrawlInv s →
      CrawlInv (ls.foldl (addLink sameHost) s)
  | [], _, h => h
  | l :: ls, s, h =>
    foldl_addLink_inv sameHost ls (addLink sameHost s l) (addLink_inv sameHost s l h)

/-- New frontier entries produced by the link fold were not previously
discovered. -/
theorem foldl_addLink_frontier_new (sameHost : String → Bool) :
    ∀ (ls : List String) (s : CrawlState) (u : String),
      u ∈ (ls.foldl (addLink sameHost) s).urlsToVisit →
      u ∈ s.urlsToVisit ∨ u ∉ s.foundUrls
  | [], _, _, hu => Or.inl hu
  | l :: ls, s, u, hu => by
    rcases foldl_addLink_frontier_new sameHost ls (addLink sameHost s l) u hu with h1 | h1
    · unfold addLink at h1
      split at h1
      case isTrue hcond =>
        simp at hcond
        rcases List.mem_append.1 h1 with h2 | h2
        · exact Or.inl h2
        · simp at h2
          exact Or.inr (h2 ▸ hcond.2)
      case isFalse => exact Or.inl h1
    · refine Or.inr fun hmem => h1 ?_
      exact addLink_found_mono sameHost s l u hmem

theorem crawlStep_eq_nil (links : String → List String) (sameHost : String → Bool)
    (s : CrawlState) (hfront : s.urlsToVisit = []) :
    crawlStep links sameHost s = s := by
  unfold crawlStep
  rw [hfront]

theorem crawlStep_eq_skip (links : String → List String) (sameHost : String → Bool)
    (s : CrawlState) {currentUrl : String} {rest : List String}
    (hfront : s.urlsToVisit = currentUrl :: rest)
    (hvis : s.visitedUrls.contains currentUrl = true) :
    crawlStep links sameHost s = { s with urlsToVisit := rest } := by
  unfold crawlStep
  rw [hfront]
  exact if_pos hvis

theorem crawlStep_eq_visit (links : String → List String) (sameHost : String → Bool)
    (s : CrawlState) {currentUrl : String} {rest : List String}
    (hfront : s.urlsToVisit = currentUrl :: rest)
    (hvis : s.visitedUrls.contains currentUrl = false) :
    crawlStep links sameHost s = (links currentUrl).foldl (addLink sameHost)
      { s with urlsToVisit := rest, visitedUrls := s.visitedUrls ++ [currentUrl] } := by
  unfold crawlStep
  rw [hfront]
  exact if_neg (by simpa using hvis)

theorem crawlStep_inv (links : String → List String) (sameHost : String → Bool)
    (s : CrawlState) (h : CrawlInv s) : CrawlInv (crawlStep links sameHost s) := by
  obtain ⟨hv, hf, hvf, hff⟩ := h
  cases hfront : s.urlsToVisit with
  | nil =>
    rw [crawlStep_eq_nil links sameHost s hfront]
    exact ⟨hv, hf, hvf, hff⟩
  | cons currentUrl rest =>
    have hfnodup : rest.Nodup := by
      rw [hfront] at hf
      exact hf.of_cons
    have hrest : ∀ u ∈ rest, u ∈ s.foundUrls := fun u hu =>
      hff u (by rw [hfront]; exact List.mem_cons_of_mem currentUrl hu)
    cases hvis : s.visitedUrls.contains currentUrl with
    | true =>
      rw [crawlStep_eq_skip links sameHost s hfront hvis]
      exact ⟨hv, hfnodup, hvf, hrest⟩
    | false =>
      rw [crawlStep_eq_visit links sameHost s hfront hvis]
      apply foldl_addLink_inv
      have hnv : currentUrl ∉ s.visitedUrls := by simpa using hvis
      refine ⟨?_, hfnodup, ?_, hrest⟩
      · rw [List.nodup_append]
        refine ⟨hv, List.nodup_singleton currentUrl, ?_⟩
        intro u hu hul
        rw [List.mem_singleton] at hul
        subst hul
        exact hnv hu
      · intro u hu
        rcases List.mem_append.1 hu with hu | hu
        · exact hvf u hu
        · rw [List.mem_singleton] at hu
          exact hu ▸ hff currentUrl
            (by rw [hfront]; exact List.mem_cons_self currentUrl rest)

theorem crawlStep_visited_le (links : String → List String)
    (sameHost : String → Bool) (s : CrawlState) :
    (crawlStep links sameHost s).visitedUrls.length ≤ s.visitedUrls.length + 1 := by
  cases hfront : s.urlsToVisit with
  | nil =>
    rw [crawlStep_eq_nil links sameHost s hfront]
    exact Nat.le_succ _
  | cons currentUrl rest =>
    cases hvis : s.visitedUrls.contains currentUrl with
    | true =>
      rw [crawlStep_eq_skip links sameHost s hfront hvis]
      exact Nat.le_succ _
    | false =>
      rw [crawlStep_eq_visit links sameHost s hfront hvis]
      rw [foldl_addLink_visited_eq]
      simp

/-- New frontier entries produced by one loop iteration were not previously
discovered (the `!foundUrls.has(link)` guard). -/
theorem crawlStep_frontier_new (links : String → List String)
    (sameHost : String → Bool) (s : CrawlState) (u : String)
    (hu : u ∈ (crawlStep links sameHost s).urlsToVisit) :
    u ∈ s.urlsToVisit ∨ u ∉ s.foundUrls := by
  cases hfront : s.urlsToVisit with
  | nil =>
    rw [crawlStep_eq_nil links sameHost s hfront] at hu
    exact Or.inl (hfront ▸ hu)
  | cons currentUrl rest =>
    cases hvis : s.visitedUrls.contains currentUrl with
    | true =>
      rw [crawlStep_eq_skip links sameHost s hfront hvis] at hu
      exact Or.inl (List.mem_cons_of_mem currentUrl hu)
    | false =>
      rw [crawlStep_eq_visit links sameHost s hfront hvis] at hu
      rcases foldl_addLink_frontier_new sameHost (links currentUrl) _ u hu with h1 | h1
      · exact Or.inl (List.mem_cons_of_mem currentUrl h1)
      · exact Or.inr h1

theorem crawlLoop_inv (links : String → List String) (sameHost : String → Bool)
    (maxPages : Nat) :
    ∀ (fuel : Nat) (s : CrawlState),
      CrawlInv s → s.visitedUrls.length ≤ maxPages →
      CrawlInv (crawlLoop links sameHost maxPages fuel s) ∧
        (crawlLoop links sameHost maxPages fuel s).visitedUrls.length ≤ maxPages
  | 0, s, hinv, hlen => ⟨hinv, hlen⟩
  | Nat.succ fuel, s, hinv, hlen => by
    unfold crawlLoop
    split
    case isTrue => exact ⟨hinv, hlen⟩
    case isFalse hcond =>
      rw [Bool.or_eq_true, not_or] at hcond
      have hlt : s.visitedUrls.length < maxPages := by
        rcases hcond with ⟨_, h2⟩
        simpa using h2
      exact crawlLoop_inv links sameHost maxPages fuel _
        (crawlStep_inv links sameHost s hinv)
        (Nat.le_trans (crawlStep_visited_le links sameHost s) hlt)

theorem crawlRun_inv (links : String → List String) (sameHost : String → Bool)
    (baseUrl : String) (maxPages fuel : Nat) :
    CrawlInv (crawlRun links sameHost baseUrl maxPages fuel) ∧
      (crawlRun links sameHost baseUrl maxPages fuel).visitedUrls.length ≤ maxPages := by
  apply crawlLoop_inv
  · refine ⟨List.nodup_nil, List.nodup_singleton baseUrl, ?_, ?_⟩
    · intro u hu
      simp [initCrawlState] at hu
    · intro u hu
      simpa [initCrawlState] using hu
  · simp [initCrawlState]

theorem extractLocs_cons (e : SitemapUrlEntry) (rest : List SitemapUrlEntry) :
    extractLocs (e :: rest) =
      (match e.loc with
       | some (l0 :: _) =>
         if l0 ≠ "" then l0 :: extractLocs rest else extractLocs rest
       | _ => extractLocs rest) := rfl

theorem locEntriesList_cons (e : SitemapUrlEntry) (rest : List SitemapUrlEntry) :
    locEntriesList (e :: rest) = e.loc.getD [] ++ locEntriesList rest := rfl

theorem extractLocs_all_single :
    ∀ (entries : List SitemapUrlEntry),
      (∀ e ∈ entries, ∃ s, e.loc = some [s] ∧ s ≠ "") →
      extractLocs entries = locEntriesList entries ∧
        (locEntriesList entries).length = entries.length
  | [], _ => ⟨rfl, rfl⟩
  | e :: rest, h => by
    obtain ⟨s, hl, hs⟩ := h e (List.mem_cons_self e rest)
    obtain ⟨ih1, ih2⟩ :=
      extractLocs_all_single rest (fun e' he' => h e' (List.mem_cons_of_mem e he'))
    have h2 : locEntriesList (e :: rest) = s :: locEntriesList rest := by
      rw [locEntriesList_cons, hl]
      rfl
    have h1 : extractLocs (e :: rest) = s :: extractLocs rest := by
      rw [extractLocs_cons, hl]
      exact if_pos hs
    constructor
    · rw [h1, h2, ih1]
    · rw [h2]
      simp [ih2]

theorem jsSubstring_length (s : String) (n : Nat) :
    (jsSubstring s n).length = min n s.length := by
  show (s.data.take n).length = min n s.data.length
  exact List.length_take n s.data

theorem processRelevantUrl_def (extract : String → Option PageContent)
    (pages : List AnalyzedPage) (url : String) :
    processRelevantUrl extract pages url =
      (match extract url with
       | some c =>
         if 100 < c.content.length then
           pages ++ [{ url := url, title := c.title, description := c.metaDescription,
                       content := jsSubstring c.content 3000 }]
         else pages
       | none => pages) := rfl

theorem processRelevantUrl_append (extract : String → Option PageContent)
    (pages : List AnalyzedPage) (url : String) :
    ∃ t, processRelevantUrl extract pages url = pages ++ t := by
  rw [processRelevantUrl_def]
  cases hc : extract url with
  | none => exact ⟨[], (List.append_nil pages).symm⟩
  | some c =>
    by_cases h : 100 < c.content.length
    · exact ⟨_, if_pos h⟩
    · exact ⟨[], (if_neg h).trans (List.append_nil pages).symm⟩

theorem foldl_processRelevantUrl_append (extract : String → Option PageContent) :
    ∀ (urls : List String) (pages : List AnalyzedPage),
      ∃ t, List.foldl (processRelevantUrl extract) pages urls = pages ++ t
  | [], pages => ⟨[], by rw [List.foldl_nil, List.append_nil]⟩
  | url :: urls, pages => by
    obtain ⟨t0, ht0⟩ := processRelevantUrl_append extract pages url
    obtain ⟨t, ht⟩ :=
      foldl_processRelevantUrl_append extract urls (processRelevantUrl extract pages url)
    exact ⟨t0 ++ t, by rw [List.foldl_cons, ht, ht0, List.append_assoc]⟩

/-!
## Claim theorems
-/

/-- C1: for every link oracle, host test, base URL, `maxPages` and number of
executed loop iterations, the crawl state reached by `crawlWebsite`'s loop
has a duplicate-free visited set of at most `maxPages` URLs, the visited set
is contained in the discovered set (`foundUrls`), the frontier is
duplicate-free and contained in the discovered set, and the next loop
iteration only pushes frontier entries that were not already discovered;
`crawlWebsite` itself returns the discovered set of such a state. Since the
iteration count is universally quantified, the invariants hold at every step
of the loop. -/
theorem crawl_visited_bounded_and_subset (links : String → List String)
    (sameHost : String → Bool) (baseUrl : String) (maxPages fuel : Nat) :
    (crawlRun links sameHost baseUrl maxPages fuel).visitedUrls.Nodup ∧
    (crawlRun links sameHost baseUrl maxPages fuel).visitedUrls.length ≤ maxPages ∧
    (∀ u, u ∈ (crawlRun links sameHost baseUrl maxPages fuel).visitedUrls →
      u ∈ (crawlRun links sameHost baseUrl maxPages fuel).foundUrls) ∧
    (crawlRun links sameHost baseUrl maxPages fuel).urlsToVisit.Nodup ∧
    (∀ u, u ∈ (crawlRun links sameHost baseUrl maxPages fuel).urlsToVisit →
      u ∈ (crawlRun links sameHost baseUrl maxPages fuel).foundUrls) ∧
    (∀ u, u ∈ (crawlStep links sameHost
        (crawlRun links sameHost baseUrl maxPages fuel)).urlsToVisit →
      u ∈ (crawlRun links sameHost baseUrl maxPages fuel).urlsToVisit ∨
        u ∉ (crawlRun links sameHost baseUrl maxPages fuel).foundUrls) ∧
    crawlWebsite links sameHost baseUrl maxPages fuel
      = (crawlRun links sameHost baseUrl maxPages fuel).foundUrls := by
  obtain ⟨⟨hv, hf, hvf, hff⟩, hlen⟩ := crawlRun_inv links sameHost baseUrl maxPages fuel
  exact ⟨hv, hlen, hvf, hf, hff,
    fun u hu => crawlStep_frontier_new links sameHost _ u hu, rfl⟩

/-- C1 witness: on the concrete `demoLinks` site after one iteration, the
base URL is visited and discovered, the enqueued `/faq` link is discovered,
and the next iteration's new frontier entry `/about` satisfies the
not-yet-discovered disjunction. -/
theorem crawl_visited_bounded_and_subset_witness :
    "https://a.test" ∈
      (crawlRun demoLinks (fun _ => true) "https://a.test" 20 1).foundUrls ∧
    "https://a.test/faq" ∈
      (crawlRun demoLinks (fun _ => true) "https://a.test" 20 1).foundUrls ∧
    ("https://a.test/about" ∈
        (crawlRun demoLinks (fun _ => true) "https://a.test" 20 1).urlsToVisit ∨
      "https://a.test/about" ∉
        (crawlRun demoLinks (fun _ => true) "https://a.test" 20 1).foundUrls) :=
  ⟨(crawl_visited_bounded_and_subset demoLinks (fun _ => true) "https://a.test" 20 1).2.2.1
      "https://a.test" (by decide),
   (crawl_visited_bounded_and_subset demoLinks (fun _ => true) "https://a.test" 20 1).2.2.2.2.1
      "https://a.test/faq" (by decide),
   (crawl_visited_bounded_and_subset demoLinks (fun _ => true) "https://a.test" 20 1).2.2.2.2.2.1
      "https://a.test/about" (by decide)⟩

/-- C10 counterexample: with keyword list `["FAQ"]` and URL `"faq"`, the
keyword is a case-insensitive substring of the URL, yet `isRelevantUrl`
returns `false` — the source lower-cases only the URL, never the keyword,
so the claimed equivalence with plain case-insensitive substring matching
fails for non-lower-case keywords. -/
theorem isRelevantUrl_case_insensitive_counterexample :
    isRelevantUrl "faq" ["FAQ"] = false ∧
    ciSubstr "FAQ" "faq" = true ∧
    isRelevantUrlSpec "faq" ["FAQ"] = true := by decide

/-- C10 (amended): the `'/' + keyword` disjunct indeed never changes the
result — `isRelevantUrl` equals plain substring matching of each keyword
against the lower-cased URL — and the equivalence with case-insensitive
matching holds exactly when lower-casing fixes every keyword (true of the
constructor's fixed list). -/
theorem isRelevantUrl_slash_redundant (url : String) (keywords : List String) :
    (isRelevantUrl url keywords
      = keywords.any fun keyword => substrB keyword.data (strLower url).data) ∧
    ((∀ k ∈ keywords, strLower k = k) →
      isRelevantUrl url keywords = isRelevantUrlSpec url keywords) := by
  constructor
  · unfold isRelevantUrl
    exact any_congr_mem keywords fun k _ => slash_check_redundant k (strLower url).data
  · intro hk
    exact (isRelevantUrlSpec_eq_of_fixed url keywords hk).symm

/-- C10 witness: the amended equivalence applied to the lower-case keyword
`"faq"` and a mixed-case URL. -/
theorem isRelevantUrl_slash_redundant_witness :
    isRelevantUrl "https://x.com/FAQ" ["faq"]
      = isRelevantUrlSpec "https://x.com/FAQ" ["faq"] :=
  (isRelevantUrl_slash_redundant "https://x.com/FAQ" ["faq"]).2 (by decide)

/-- C7: when the model call fails, `analyzeWithLLM` returns exactly the
input URL list filtered, in order, by case-insensitive matching against the
fixed keyword list (bare or `/`-prefixed), truncated to the first 15; and on
the spec's concrete example (keywords `faq, about`) it returns exactly
`["https://x.com/faq"]`. -/
theorem analyzeWithLLM_fallback_filter :
    (∀ urls : List String,
      analyzeWithLLM urls relevantKeywords (.error ())
        = (urls.filter fun url => isRelevantUrlSpec url relevantKeywords).take 15) ∧
    analyzeWithLLM ["https://x.com/faq", "https://x.com/blog"] ["faq", "about"]
        (.error ())
      = ["https://x.com/faq"] := by
  constructor
  · intro urls
    show (urls.filter fun url => isRelevantUrl url relevantKeywords).take 15
      = (urls.filter fun url => isRelevantUrlSpec url relevantKeywords).take 15
    have hfun : (fun url => isRelevantUrlSpec url relevantKeywords)
        = fun url => isRelevantUrl url relevantKeywords :=
      funext fun url => isRelevantUrlSpec_eq_of_fixed url relevantKeywords (by decide)
    rw [hfun]
  · decide

/-- C6: the prompt `analyzeWithLLM` submits to the model depends only on the
first 50 discovered URLs (and the base URL): for every URL list it equals
the prompt built from the list's first 50 entries, so URLs past position 50
never influence, and in particular never appear in, the model prompt. -/
theorem analyzeWithLLMPrompt_first_50 (urls : List String) (baseUrl : String) :
    analyzeWithLLMPrompt urls baseUrl
      = analyzeWithLLMPrompt (urls.take 50) baseUrl := by
  unfold analyzeWithLLMPrompt
  rw [List.take_take, min_self]

/-- C8: with an empty corpus, `generateBusinessSummary` returns the fixed
placeholder string; the result is the same for every model oracle, i.e. the
language model is never consulted. -/
theorem generateBusinessSummary_empty_placeholder
    (model : String → Except Unit (Option String)) :
    generateBusinessSummary [] model = "No content available for analysis." := rfl

/-- C2 counterexample: on the model path `analyzeWithLLM` returns the parsed
response lines as they are — with input `urls = []` and a model response
repeating one URL, the result has a duplicate and is not contained in the
input list, refuting the claimed no-duplicates/subset property for the
model path. -/
theorem analyzeWithLLM_model_path_counterexample :
    analyzeWithLLM [] [] (.ok (some "https://a.com\nhttps://a.com"))
        = ["https://a.com", "https://a.com"] ∧
    ¬ (analyzeWithLLM [] [] (.ok (some "https://a.com\nhttps://a.com"))).Nodup ∧
    ¬ (∀ u ∈ analyzeWithLLM [] [] (.ok (some "https://a.com\nhttps://a.com")),
        u ∈ ([] : List String)) := by
  refine ⟨by decide, by decide, fun h => ?_⟩
  exact absurd (h "https://a.com" (by decide)) (by decide)

/-- C2 (amended): every `analyzeWithLLM` result has at most 15 elements; on
the keyword-fallback path the result is additionally an order-preserving
sublist of the input — hence a subset of it, and duplicate-free whenever the
input is. On the model path no subset or no-duplicate guarantee holds (see
the counterexample). -/
theorem analyzeWithLLM_bounds (urls kws : List String)
    (outcome : Except Unit (Option String)) :
    (analyzeWithLLM urls kws outcome).length ≤ 15 ∧
    List.Sublist (analyzeWithLLM urls kws (.error ())) urls ∧
    (urls.Nodup → (analyzeWithLLM urls kws (.error ())).Nodup) ∧
    (∀ u, u ∈ analyzeWithLLM urls kws (.error ()) → u ∈ urls) := by
  have hsub : List.Sublist (analyzeWithLLM urls kws (.error ())) urls :=
    (List.take_sublist 15 _).trans (List.filter_sublist _)
  refine ⟨?_, hsub, fun hnd => hsub.nodup hnd, fun u hu => hsub.subset hu⟩
  cases outcome with
  | error e => exact List.length_take_le _ _
  | ok c =>
    cases c with
    | none => exact Nat.zero_le 15
    | some content => exact List.length_take_le _ _

/-- C2 witness: the fallback on a one-URL relevant input keeps the list
duplicate-free and inside the input. -/
theorem analyzeWithLLM_bounds_witness :
    (analyzeWithLLM ["https://x.com/faq"] relevantKeywords (.error ())).Nodup ∧
    "https://x.com/faq" ∈ (["https://x.com/faq"] : List String) :=
  ⟨(analyzeWithLLM_bounds ["https://x.com/faq"] relevantKeywords (.error ())).2.2.1
      (by decide),
   (analyzeWithLLM_bounds ["https://x.com/faq"] relevantKeywords (.error ())).2.2.2
      "https://x.com/faq" (by decide)⟩

/-- C3 counterexample: a successful response whose body is well-formed XML
but not of the sitemap-protocol shape (root is not `<urlset>`) makes
`fetchSitemap` return `some []`, not `null` — and therefore the Analyzer
does not fall back to the crawl. -/
theorem fetchSitemap_nonconforming_counterexample :
    conformsToSitemapShape (some ⟨none⟩) = false ∧
    fetchSitemap ⟨true, some ⟨none⟩⟩ = some [] ∧
    discoverUrls (fetchSitemap ⟨true, some ⟨none⟩⟩) ["https://crawl.test"]
      ≠ ["https://crawl.test"] := by decide

/-- C3 (amended): `fetchSitemap` never throws (it is total) and returns
`null` exactly when the HTTP status is non-success or the body is not
well-formed XML; a well-formed body that merely fails to conform to the
sitemap shape yields a (possibly empty) URL list instead. The Analyzer runs
the crawler exactly on the `null` result and otherwise uses the returned
list as is. -/
theorem fetchSitemap_null_iff (resp : SitemapResponse) (crawlResult : List String) :
    (fetchSitemap resp = none ↔ resp.ok = false ∨ resp.body = none) ∧
    (fetchSitemap resp = none →
      discoverUrls (fetchSitemap resp) crawlResult = crawlResult) ∧
    (∀ l, fetchSitemap resp = some l →
      discoverUrls (fetchSitemap resp) crawlResult = l) := by
  obtain ⟨ok, body⟩ := resp
  refine ⟨?_, ?_, ?_⟩
  · cases ok with
    | false => cases body with
      | none => simp [fetchSitemap]
      | some px => simp [fetchSitemap]
    | true => cases body with
      | none => simp [fetchSitemap]
      | some px => simp [fetchSitemap]
  · intro h
    rw [h]
    rfl
  · intro l hl
    rw [hl]
    rfl

/-- C3 witness: a failed fetch triggers the crawl fallback; a success with a
non-sitemap body suppresses it. -/
theorem fetchSitemap_null_iff_witness :
    discoverUrls (fetchSitemap ⟨false, none⟩) ["https://crawl.test"]
      = ["https://crawl.test"] ∧
    discoverUrls (fetchSitemap ⟨true, some ⟨some ⟨some [⟨some ["https://a.test/"]⟩]⟩⟩⟩)
        ["https://crawl.test"]
      = ["https://a.test/"] :=
  ⟨(fetchSitemap_null_iff ⟨false, none⟩ ["https://crawl.test"]).2.1 (by decide),
   (fetchSitemap_null_iff ⟨true, some ⟨some ⟨some [⟨some ["https://a.test/"]⟩]⟩⟩⟩
      ["https://crawl.test"]).2.2 ["https://a.test/"] (by decide)⟩

/-- C4 counterexample: a successful response whose body is a sitemap with
one `<loc>` entry whose text is empty yields `some []` — zero URLs for
`N = 1`, refuting "exactly N URLs" (the `urlObj.loc[0]` truthiness test
skips empty loc texts). -/
theorem fetchSitemap_empty_loc_counterexample :
    (locEntries ⟨some ⟨some [⟨some [""]⟩]⟩⟩).length = 1 ∧
    fetchSitemap ⟨true, some ⟨some ⟨some [⟨some [""]⟩]⟩⟩⟩ = some [] := by decide

/-- C4 (amended): a non-success (e.g. 404) response yields `null`; a
successful response whose body parses as a sitemap in which every `<url>`
element carries exactly one nonempty `<loc>` yields exactly the N `<loc>`
texts in document order. (Entries with missing or empty `<loc>` text are
skipped, and only the first `<loc>` of a `<url>` element is read.) -/
theorem fetchSitemap_locs_in_order (resp : SitemapResponse) :
    (resp.ok = false → fetchSitemap resp = none) ∧
    (∀ px entries, resp.ok = true → resp.body = some px →
      px.urlset = some ⟨some entries⟩ →
      (∀ e ∈ entries, ∃ s, e.loc = some [s] ∧ s ≠ "") →
      fetchSitemap resp = some (locEntries px) ∧
        (locEntries px).length = entries.length) := by
  obtain ⟨ok, body⟩ := resp
  constructor
  · intro h
    subst h
    rfl
  · intro px entries hok hbody hurlset hall
    subst hok
    subst hbody
    obtain ⟨h1, h2⟩ := extractLocs_all_single entries hall
    have hsu : sitemapUrls px = extractLocs entries := by
      unfold sitemapUrls
      rw [hurlset]
    have hle : locEntries px = locEntriesList entries := by
      unfold locEntries
      rw [hurlset]
    constructor
    · show some (sitemapUrls px) = some (locEntries px)
      rw [hsu, h1, ← hle]
    · rw [hle]
      exact h2

/-- C4 witness: a two-entry sitemap is returned in document order, and a
failed fetch yields `null`. -/
theorem fetchSitemap_locs_in_order_witness :
    fetchSitemap ⟨true, some ⟨some ⟨some [⟨some ["https://a.test/"]⟩,
        ⟨some ["https://a.test/faq"]⟩]⟩⟩⟩
      = some ["https://a.test/", "https://a.test/faq"] ∧
    fetchSitemap ⟨false, none⟩ = none := by
  constructor
  · have h := (fetchSitemap_locs_in_order ⟨true, some ⟨some ⟨some
        [⟨some ["https://a.test/"]⟩, ⟨some ["https://a.test/faq"]⟩]⟩⟩⟩).2
      ⟨some ⟨some [⟨some ["https://a.test/"]⟩, ⟨some ["https://a.test/faq"]⟩]⟩⟩
      [⟨some ["https://a.test/"]⟩, ⟨some ["https://a.test/faq"]⟩]
      rfl rfl rfl
      (by
        intro e he
        rw [List.mem_cons, List.mem_singleton] at he
        rcases he with rfl | rfl
        · exact ⟨"https://a.test/", rfl, by decide⟩
        · exact ⟨"https://a.test/faq", rfl, by decide⟩)
    exact h.1.trans (by decide)
  · exact (fetchSitemap_locs_in_order ⟨false, none⟩).1 rfl

/-- C5: in the Analyzer loop a page is appended to the corpus iff extraction
succeeds with content longer than 100 characters, the stored content is the
extraction truncated to at most 3000 characters (a 5000-character page is
admitted with exactly 3000 characters; a page of at most 100 — in particular
50 — characters is rejected), and the loop only ever appends: pages already
in the corpus are never modified. -/
theorem analyzer_admission_filter (extract : String → Option PageContent)
    (pages : List AnalyzedPage) (url : String) :
    (∀ c, extract url = some c → 100 < c.content.length →
      processRelevantUrl extract pages url
        = pages ++ [{ url := url, title := c.title, description := c.metaDescription,
                      content := jsSubstring c.content 3000 }]) ∧
    (∀ c, extract url = some c → c.content.length ≤ 100 →
      processRelevantUrl extract pages url = pages) ∧
    (extract url = none → processRelevantUrl extract pages url = pages) ∧
    (∀ c, extract url = some c → c.content.length = 5000 →
      ∃ p, processRelevantUrl extract pages url = pages ++ [p]
        ∧ p.content.length = 3000) ∧
    (∀ urls, ∃ t, List.foldl (processRelevantUrl extract) pages urls = pages ++ t) := by
  have hkeep : ∀ c, extract url = some c → 100 < c.content.length →
      processRelevantUrl extract pages url
        = pages ++ [{ url := url, title := c.title, description := c.metaDescription,
                      content := jsSubstring c.content 3000 }] := by
    intro c hc hlen
    rw [processRelevantUrl_def, hc]
    exact if_pos hlen
  refine ⟨hkeep, ?_, ?_, ?_, fun urls => foldl_processRelevantUrl_append extract urls pages⟩
  · intro c hc hlen
    rw [processRelevantUrl_def, hc]
    exact if_neg (Nat.not_lt.mpr hlen)
  · intro h
    rw [processRelevantUrl_def, h]
  · intro c hc hlen
    refine ⟨_, hkeep c hc (by omega), ?_⟩
    show (jsSubstring c.content 3000).length = 3000
    rw [jsSubstring_length, hlen]
    norm_num

/-- C5 witness: with the concrete extraction oracle, the 5000-character page
is admitted with exactly 3000 stored characters, the 50-character page and
the failed extraction are skipped, and the loop extends the corpus only by
appending. -/
theorem analyzer_admission_filter_witness :
    (∃ p, processRelevantUrl demoExtract [] "https://a.test/long" = [] ++ [p]
      ∧ p.content.length = 3000) ∧
    processRelevantUrl demoExtract [] "https://a.test/short" = [] ∧
    processRelevantUrl demoExtract [] "https://a.test/none" = [] ∧
    (∃ t, List.foldl (processRelevantUrl demoExtract) []
        ["https://a.test/long", "https://a.test/short"] = [] ++ t) :=
  ⟨(analyzer_admission_filter demoExtract [] "https://a.test/long").2.2.2.1
      ⟨"Long", "Meta", demoLongContent⟩ rfl
      (by show (List.replicate 5000 'a').length = 5000; rw [List.length_replicate]),
   (analyzer_admission_filter demoExtract [] "https://a.test/short").2.1
      ⟨"Short", "Meta", demoShortContent⟩ rfl
      (by show (List.replicate 50 'a').length ≤ 100; rw [List.length_replicate]; decide),
   (analyzer_admission_filter demoExtract [] "https://a.test/none").2.2.1 rfl,
   (analyzer_admission_filter demoExtract [] "https://a.test/long").2.2.2.2
      ["https://a.test/long", "https://a.test/short"]⟩

/-- C9: the `WebsiteAnalyzer` constructor fails — with the exact error
message of the source — precisely when `OPENAI_API_KEY` is absent (or empty,
which JavaScript treats the same); with the credential present it succeeds
for every assignment of the optional Sensay variables, recording the
optional Sensay configuration and performing no discovery work (the
constructed state has an empty corpus and only configuration fields). -/
theorem mkWebsiteAnalyzer_requires_key (env : Env) (baseUrl : String) :
    (envTruthy env.OPENAI_API_KEY = false →
      mkWebsiteAnalyzer env baseUrl
        = Except.error "OPENAI_API_KEY environment variable is required") ∧
    (env.OPENAI_API_KEY = none →
      mkWebsiteAnalyzer env baseUrl
        = Except.error "OPENAI_API_KEY environment variable is required") ∧
    (envTruthy env.OPENAI_API_KEY = true →
      ∃ st, mkWebsiteAnalyzer env baseUrl = Except.ok st ∧
        st.sensayConfig = initializeSensayConfig env ∧
        st.relevantKeywords = relevantKeywords ∧
        st.analyzedPages = []) := by
  have herr : envTruthy env.OPENAI_API_KEY = false →
      mkWebsiteAnalyzer env baseUrl
        = Except.error "OPENAI_API_KEY environment variable is required" := by
    intro h
    unfold mkWebsiteAnalyzer
    rw [h]
    rfl
  refine ⟨herr, fun h => herr (by rw [h]; rfl), ?_⟩
  intro h
  exact ⟨{ baseUrl := baseUrl, relevantKeywords := relevantKeywords,
           analyzedPages := [],
           openaiApiKey := env.OPENAI_API_KEY.getD "",
           openaiBaseUrl := env.OPENAI_BASE_URL,
           sensayConfig := initializeSensayConfig env },
         by simp [mkWebsiteAnalyzer, h], rfl, rfl, rfl⟩

/-- C9 witness: an environment with no credential fails with the source's
error message; one with only the credential set (no Sensay variables)
constructs successfully. -/
theorem mkWebsiteAnalyzer_requires_key_witness :
    mkWebsiteAnalyzer ⟨none, none, none, none, none, none⟩ "https://a.test"
      = Except.error "OPENAI_API_KEY environment variable is required" ∧
    ∃ st, mkWebsiteAnalyzer ⟨some "sk-key", none, none, none, none, none⟩
          "https://a.test" = Except.ok st ∧
      st.sensayConfig
        = initializeSensayConfig ⟨some "sk-key", none, none, none, none, none⟩ ∧
      st.relevantKeywords = relevantKeywords ∧
      st.analyzedPages = [] :=
  ⟨(mkWebsiteAnalyzer_requires_key ⟨none, none, none, none, none, none⟩
      "https://a.test").2.1 rfl,
   (mkWebsiteAnalyzer_requires_key ⟨some "sk-key", none, none, none, none, none⟩
      "https://a.test").2.2 (by decide)⟩
